import Mathlib

/-!
Shallow embedding of the compose orchestrator in
`internal/foundation/compose/compose.go` (package `compose`), together with
theorems settling the specification claims about it.

Conventions used throughout:
- Go maps that are only read through key lookup are embedded as association
  lists `List (String × String)` with Go assignment semantics (`setLabel`)
  and Go indexing semantics (`getLabelD`, missing key yields the zero value).
- Go map iteration order is unspecified and randomized by the runtime; a
  definition that ranges over a map therefore takes the enumeration order of
  the keys as an explicit `order : List String` argument.
- Engine calls are embedded as oracle functions returning `Except String`,
  one oracle field per Docker SDK call the code performs.
- Strings handled by the code (container ids, names, labels) are ASCII, so
  Go byte slicing `s[:12]` coincides with `String.take 12` on characters.
-/

/-! ### Label maps (Go `map[string]string`) -/

/-- Go map assignment `m[k] = v`, observed through lookups: any previous
binding of `k` is replaced. -/
def setLabel (m : List (String × String)) (k v : String) : List (String × String) :=
  m.filter (fun p => !(p.1 == k)) ++ [(k, v)]

/-- Lookup of a key in a label map, `none` when absent. -/
def getLabel? (m : List (String × String)) (k : String) : Option String :=
  (m.find? (fun p => p.1 == k)).map (fun p => p.2)

/-- Go map indexing `m[k]`: the zero value `""` when the key is absent. -/
def getLabelD (m : List (String × String)) (k : String) : String :=
  (getLabel? m k).getD ""

theorem find?_filter_of_imp {α : Type} (p q : α → Bool) (l : List α)
    (h : ∀ x, p x = true → q x = true) : (l.filter q).find? p = l.find? p := by
  induction l with
  | nil => rfl
  | cons a rest ih =>
    by_cases hq : q a = true
    · rw [List.filter_cons_of_pos hq]
      by_cases hp : p a = true
      · rw [List.find?_cons_of_pos _ hp, List.find?_cons_of_pos _ hp]
      · rw [List.find?_cons_of_neg _ (by simpa using hp),
          List.find?_cons_of_neg _ (by simpa using hp), ih]
    · have hp : ¬ p a = true := fun hpa => hq (h a hpa)
      rw [List.filter_cons_of_neg (by simpa using hq),
        List.find?_cons_of_neg _ (by simpa using hp), ih]

theorem getLabel?_setLabel_same (m : List (String × String)) (k v : String) :
    getLabel? (setLabel m k v) k = some v := by
  have hnone : (m.filter (fun p => !(p.1 == k))).find? (fun p => p.1 == k) = none := by
    refine List.find?_eq_none.mpr ?_
    intro x hx
    have hkeep := (List.mem_filter.mp hx).2
    simp only [Bool.not_eq_true'] at hkeep
    simp [hkeep]
  simp [getLabel?, setLabel, List.find?_append, hnone, List.find?]

theorem getLabel?_setLabel_ne (m : List (String × String)) (k v k' : String)
    (h : k' ≠ k) : getLabel? (setLabel m k v) k' = getLabel? m k' := by
  have hlast : (([(k, v)] : List (String × String)).find? (fun p => p.1 == k')) = none := by
    have hkk : (k == k') = false := beq_eq_false_iff_ne.mpr (fun hh => h hh.symm)
    simp [List.find?, hkk]
  have himp : ∀ x : String × String, (x.1 == k') = true → (!(x.1 == k)) = true := by
    intro x hx
    simp only [beq_iff_eq] at hx
    simp [hx, h]
  have hfil := find?_filter_of_imp (fun p => p.1 == k') (fun p => !(p.1 == k)) m himp
  simp [getLabel?, setLabel, List.find?_append, hlast, hfil]

/-! ### Dependency planner (`sortServicesByDependency`, compose.go lines 230 to 288)

The Go function ranges over the service map `services`; `order` is the
enumeration order the runtime chooses for that map (Go randomizes it between
runs).  `deps` maps a service name to the keys of its `depends_on` map.
`planPass` is one execution of the inner `for name, svc := range services`
loop: a service not yet placed whose dependencies are all placed is appended
to `result` (the Go code marks `added[name] = true` at the same time it
appends, so the `added` set is exactly the membership of `result`). -/

def planPass (deps : String → List String) : List String → List String → List String
  | [], result => result
  | name :: rest, result =>
    if name ∈ result then planPass deps rest result
    else if ∀ d ∈ deps name, d ∈ result then planPass deps rest (result ++ [name])
    else planPass deps rest result

theorem planPass_cons_mem (deps : String → List String) (name : String)
    (rest result : List String) (h : name ∈ result) :
    planPass deps (name :: rest) result = planPass deps rest result := by
  simp only [planPass, if_pos h]

theorem planPass_cons_ready (deps : String → List String) (name : String)
    (rest result : List String) (h1 : name ∉ result)
    (h2 : ∀ d ∈ deps name, d ∈ result) :
    planPass deps (name :: rest) result = planPass deps rest (result ++ [name]) := by
  simp only [planPass, if_neg h1, if_pos h2]

theorem planPass_cons_blocked (deps : String → List String) (name : String)
    (rest result : List String) (h1 : name ∉ result)
    (h2 : ¬ ∀ d ∈ deps name, d ∈ result) :
    planPass deps (name :: rest) result = planPass deps rest result := by
  simp only [planPass, if_neg h1, if_neg h2]

/-- The outer `for len(result) < len(services)` loop.  A pass that makes no
progress triggers the cycle fallback: all remaining services are appended in
enumeration order, mirroring the final `for name, svc := range services`
loop of the Go code.  The Go loop needs at most one iteration per service
before it either completes or breaks, so the fuel supplied by
`sortServicesByDependency` is never exhausted. -/
def sortLoop (deps : String → List String) (order : List String) :
    Nat → List String → List String
  | 0, result => result
  | fuel + 1, result =>
    if result.length < order.length then
      if (planPass deps order result).length = result.length then
        result ++ order.filter (fun n => decide (n ∉ result))
      else sortLoop deps order fuel (planPass deps order result)
    else result

theorem sortLoop_succ_done (deps : String → List String) (order : List String)
    (fuel : Nat) (result : List String) (h : ¬ result.length < order.length) :
    sortLoop deps order (fuel + 1) result = result := by
  simp only [sortLoop, if_neg h]

theorem sortLoop_succ_fallback (deps : String → List String) (order : List String)
    (fuel : Nat) (result : List String) (h : result.length < order.length)
    (hp : (planPass deps order result).length = result.length) :
    sortLoop deps order (fuel + 1) result =
      result ++ order.filter (fun n => decide (n ∉ result)) := by
  simp only [sortLoop, if_pos h, if_pos hp]

theorem sortLoop_succ_step (deps : String → List String) (order : List String)
    (fuel : Nat) (result : List String) (h : result.length < order.length)
    (hp : ¬ (planPass deps order result).length = result.length) :
    sortLoop deps order (fuel + 1) result =
      sortLoop deps order fuel (planPass deps order result) := by
  simp only [sortLoop, if_pos h, if_neg hp]

/-- `sortServicesByDependency`, compose.go lines 230 to 288, as a function of
the map enumeration order. -/
def sortServicesByDependency (deps : String → List String) (order : List String) :
    List String :=
  sortLoop deps order (order.length + 1) []

theorem planPass_shape (deps : String → List String) (order : List String) :
    ∀ result : List String,
      ∃ t, planPass deps order result = result ++ t ∧ ∀ x ∈ t, x ∈ order ∧ x ∉ result := by
  induction order with
  | nil => intro result; exact ⟨[], by simp [planPass]⟩
  | cons name rest ih =>
    intro result
    by_cases h1 : name ∈ result
    · obtain ⟨t, ht, hmem⟩ := ih result
      exact ⟨t, by rw [planPass_cons_mem deps name rest result h1]; exact ht,
        fun x hx => ⟨List.mem_cons_of_mem _ (hmem x hx).1, (hmem x hx).2⟩⟩
    · by_cases h2 : ∀ d ∈ deps name, d ∈ result
      · obtain ⟨t, ht, hmem⟩ := ih (result ++ [name])
        refine ⟨name :: t, ?_, ?_⟩
        · rw [planPass_cons_ready deps name rest result h1 h2, ht]
          simp
        · intro x hx
          rcases List.mem_cons.mp hx with rfl | hx'
          · exact ⟨List.mem_cons_self _ _, h1⟩
          · refine ⟨List.mem_cons_of_mem _ (hmem x hx').1, fun hc => ?_⟩
            have hnot := (hmem x hx').2
            simp only [List.mem_append, not_or] at hnot
            exact hnot.1 hc
      · obtain ⟨t, ht, hmem⟩ := ih result
        exact ⟨t, by rw [planPass_cons_blocked deps name rest result h1 h2]; exact ht,
          fun x hx => ⟨List.mem_cons_of_mem _ (hmem x hx).1, (hmem x hx).2⟩⟩

theorem planPass_length (deps : String → List String) (order result : List String) :
    result.length ≤ (planPass deps order result).length := by
  obtain ⟨t, ht, _⟩ := planPass_shape deps order result
  rw [ht]
  simp

theorem planPass_nodup (deps : String → List String) (order : List String) :
    ∀ result : List String, result.Nodup → (planPass deps order result).Nodup := by
  induction order with
  | nil => intro result h; simpa [planPass] using h
  | cons name rest ih =>
    intro result h
    by_cases h1 : name ∈ result
    · rw [planPass_cons_mem deps name rest result h1]
      exact ih result h
    · by_cases h2 : ∀ d ∈ deps name, d ∈ result
      · rw [planPass_cons_ready deps name rest result h1 h2]
        refine ih (result ++ [name]) ?_
        exact ((List.perm_append_singleton name result).symm).nodup
          (List.nodup_cons.mpr ⟨h1, h⟩)
      · rw [planPass_cons_blocked deps name rest result h1 h2]
        exact ih result h

theorem planPass_subset (deps : String → List String) (order result : List String)
    (h : result ⊆ order) : planPass deps order result ⊆ order := by
  obtain ⟨t, ht, hmem⟩ := planPass_shape deps order result
  rw [ht]
  intro x hx
  rcases List.mem_append.mp hx with hx' | hx'
  · exact h hx'
  · exact (hmem x hx').1

theorem sortLoop_perm (deps : String → List String) (order : List String)
    (ho : order.Nodup) :
    ∀ (fuel : Nat) (result : List String), result.Nodup → result ⊆ order →
      order.length - result.length < fuel →
      List.Perm (sortLoop deps order fuel result) order := by
  intro fuel
  induction fuel with
  | zero => intro result _ _ hm; omega
  | succ fuel ih =>
    intro result hnd hsub hm
    by_cases hlt : result.length < order.length
    · by_cases hp : (planPass deps order result).length = result.length
      · rw [sortLoop_succ_fallback deps order fuel result hlt hp]
        have hresult : List.Perm result (order.filter (fun n => decide (n ∈ result))) := by
          refine (List.perm_ext_iff_of_nodup hnd (ho.filter _)).mpr ?_
          intro a
          constructor
          · intro ha
            refine List.mem_filter.mpr ⟨hsub ha, by simpa using ha⟩
          · intro ha
            have hmem := List.mem_filter.mp ha
            simpa using hmem.2
        refine (hresult.append_right _).trans ?_
        have hbase := List.filter_append_perm (fun n => decide (n ∈ result)) order
        have hneg : (fun n => !(decide (n ∈ result))) = (fun n => decide (n ∉ result)) := by
          funext n
          simp [decide_not]
        rw [hneg] at hbase
        exact hbase
      · rw [sortLoop_succ_step deps order fuel result hlt hp]
        have hgt : result.length < (planPass deps order result).length :=
          lt_of_le_of_ne (planPass_length deps order result) (fun hh => hp hh.symm)
        exact ih (planPass deps order result) (planPass_nodup deps order result hnd)
          (planPass_subset deps order result hsub) (by omega)
    · rw [sortLoop_succ_done deps order fuel result hlt]
      exact (List.subperm_of_subset hnd hsub).perm_of_length_le (Nat.le_of_not_lt hlt)

/-- Claim C9: for every dependency relation, including cyclic ones and edges
pointing anywhere, `sortServicesByDependency` terminates (it is a total
function here) and returns a permutation of the declared service set: every
declared service appears exactly once.  The `Nodup` hypothesis reflects that
Go map keys are unique. -/
theorem sortServicesByDependency_perm (deps : String → List String)
    (order : List String) (ho : order.Nodup) :
    List.Perm (sortServicesByDependency deps order) order :=
  sortLoop_perm deps order ho (order.length + 1) [] List.nodup_nil
    (List.nil_subset order) (by omega)

/-- Witness for C9 at a fully cyclic three-service graph. -/
theorem sortServicesByDependency_perm_witness :
    List.Perm
      (sortServicesByDependency
        (fun n => if n = "a" then ["b"] else if n = "b" then ["c"] else ["a"])
        ["a", "b", "c"])
      ["a", "b", "c"] :=
  sortServicesByDependency_perm
    (fun n => if n = "a" then ["b"] else if n = "b" then ["c"] else ["a"])
    ["a", "b", "c"] (by decide)

theorem planPass_nil_of_deps_ne_nil (deps : String → List String) :
    ∀ order : List String, (∀ n ∈ order, deps n ≠ []) → planPass deps order [] = [] := by
  intro order
  induction order with
  | nil => intro _; rfl
  | cons name rest ih =>
    intro h
    have hblocked : ¬ ∀ d ∈ deps name, d ∈ ([] : List String) := by
      intro hall
      cases hd : deps name with
      | nil => exact (h name (List.mem_cons_self _ _)) hd
      | cons d ds =>
        have hdmem : d ∈ deps name := by rw [hd]; exact List.mem_cons_self _ _
        exact (List.not_mem_nil d) (hall d hdmem)
    rw [planPass_cons_blocked deps name rest [] (List.not_mem_nil name) hblocked]
    exact ih (fun n hn => h n (List.mem_cons_of_mem _ hn))

/-- Claim C6 (amended): for a fixed enumeration order of the service map,
`sortServicesByDependency` is a deterministic function of that order and of
`depends_on`; in particular when no service can ever be placed (every
service has at least one dependency), the cycle fallback returns the
services exactly in the enumeration order of the map. -/
theorem sortServicesByDependency_cycle_enumeration_order
    (deps : String → List String) (order : List String)
    (h : ∀ n ∈ order, deps n ≠ []) :
    sortServicesByDependency deps order = order := by
  unfold sortServicesByDependency
  cases order with
  | nil => rfl
  | cons a rest =>
    have hpass : planPass deps (a :: rest) [] = [] :=
      planPass_nil_of_deps_ne_nil deps (a :: rest) h
    have hlt : ([] : List String).length < (a :: rest).length := by simp
    have hp : (planPass deps (a :: rest) []).length = ([] : List String).length := by
      rw [hpass]
    rw [sortLoop_succ_fallback deps (a :: rest) ((a :: rest).length) [] hlt hp]
    simp

/-- Witness for the amended C6 at a concrete two-service cycle. -/
theorem sortServicesByDependency_cycle_enumeration_order_witness :
    sortServicesByDependency (fun n => if n = "a" then ["b"] else ["a"]) ["a", "b"]
      = ["a", "b"] :=
  sortServicesByDependency_cycle_enumeration_order
    (fun n => if n = "a" then ["b"] else ["a"]) ["a", "b"] (by decide)

/-- Counterexample to C6 as stated: two runs over the same service set
(`{a, b}`, no dependencies) and the same `depends_on` relation, differing
only in the enumeration order Go chooses for the service map, return
different lists, so `sortServicesByDependency` is not deterministic across
runs. -/
theorem sortServicesByDependency_not_run_deterministic :
    List.Perm (["a", "b"] : List String) ["b", "a"]
    ∧ sortServicesByDependency (fun _ => []) ["a", "b"]
        ≠ sortServicesByDependency (fun _ => []) ["b", "a"] := by
  constructor
  · decide
  · decide

/-! ### Engine-side data (Docker SDK list results) -/

/-- One published port of a listed container (Docker `types.Port`). -/
structure PortInfo where
  ip : String
  publicPort : Nat
  privatePort : Nat
  protocol : String
deriving DecidableEq

/-- A container as reported by `ContainerList`. -/
structure ContainerSummary where
  id : String
  names : List String
  state : String
  labels : List (String × String)
  ports : List PortInfo
deriving DecidableEq

/-- A network as reported by `NetworkList`. -/
structure NetworkSummary where
  id : String
  name : String
deriving DecidableEq

/-- A volume as reported by `VolumeList`. -/
structure VolumeSummary where
  name : String
deriving DecidableEq

/-! ### Teardown engine (`Stop`, compose.go lines 417 to 600)

The cancellation state of the context is modeled as a constant `cancelled`
flag for the duration of the call; every `ctx.Err()` check in the source
reads it.  The results of the graceful `ContainerStop` and of
`ContainerKill` (lines 466 to 474) only produce warning prints and never
reach the returned error, so only their oracles are recorded here.
`removeContainerOk id attempt` is the outcome of the attempt-th
`ContainerRemove` retry (the source makes up to 3 attempts), and similarly
for `removeNetworkOk`. -/

structure StopEngine where
  cancelled : Bool
  listContainersResp : Except String (List ContainerSummary)
  stopContainerOk : String → Bool
  killContainerOk : String → Bool
  removeContainerOk : String → Nat → Bool
  listNetworksResp : Except String (List NetworkSummary)
  removeNetworkOk : String → Nat → Bool
  listVolumesResp : Except String (List VolumeSummary)
  removeVolumeOk : String → Bool

/-- Display name used in error messages, compose.go lines 461 to 464. -/
def containerDisplayName (c : ContainerSummary) : String :=
  match c.names with
  | [] => "unknown"
  | n :: _ => n

/-- The per-container loop of `stopContainers` (compose.go lines 455 to 514):
`lastErr` accumulates the latest permanent removal failure, and the loop
continues past failed removals.  The second component records every
container the loop processed. -/
def stopContainersLoop (e : StopEngine) :
    List ContainerSummary → Option String → List String → Except String Unit × List String
  | [], lastErr, processed =>
    (match lastErr with
     | some msg => Except.error msg
     | none => Except.ok (), processed)
  | c :: rest, lastErr, processed =>
    if e.cancelled then
      (Except.error "context cancelled during container cleanup", processed)
    else
      stopContainersLoop e rest
        (if e.removeContainerOk c.id 0 || e.removeContainerOk c.id 1 ||
            e.removeContainerOk c.id 2 then lastErr
         else some ("remove container " ++ containerDisplayName c))
        (processed ++ [c.id])

/-- `stopContainers`, compose.go lines 439 to 517. -/
def stopContainersSem (e : StopEngine) : Except String Unit × List String :=
  match e.listContainersResp with
  | Except.error m => (Except.error ("list containers: " ++ m), [])
  | Except.ok cs => stopContainersLoop e cs none []

/-- The per-network loop of `removeNetworks` (compose.go lines 532 to 571). -/
def removeNetworksLoop (e : StopEngine) :
    List NetworkSummary → Option String → List String → Except String Unit × List String
  | [], lastErr, processed =>
    (match lastErr with
     | some msg => Except.error msg
     | none => Except.ok (), processed)
  | n :: rest, lastErr, processed =>
    if e.cancelled then
      (Except.error "context cancelled during network cleanup", processed)
    else
      removeNetworksLoop e rest
        (if e.removeNetworkOk n.id 0 || e.removeNetworkOk n.id 1 ||
            e.removeNetworkOk n.id 2 then lastErr
         else some ("remove network " ++ n.name))
        (processed ++ [n.id])

/-- `removeNetworks`, compose.go lines 519 to 574: networks are discovered by
project label, not from the in-memory map. -/
def removeNetworksSem (e : StopEngine) : Except String Unit × List String :=
  match e.listNetworksResp with
  | Except.error m => (Except.error ("list networks: " ++ m), [])
  | Except.ok ns => removeNetworksLoop e ns none []

/-- The per-volume loop of `removeVolumes` (compose.go lines 588 to 594);
the source performs no retries and no cancellation checks here. -/
def removeVolumesLoop (e : StopEngine) :
    List VolumeSummary → Option String → List String → Except String Unit × List String
  | [], lastErr, processed =>
    (match lastErr with
     | some msg => Except.error msg
     | none => Except.ok (), processed)
  | v :: rest, lastErr, processed =>
    removeVolumesLoop e rest
      (if e.removeVolumeOk v.name then lastErr
       else some ("remove volume " ++ v.name))
      (processed ++ [v.name])

/-- `removeVolumes`, compose.go lines 576 to 600. -/
def removeVolumesSem (e : StopEngine) : Except String Unit × List String :=
  match e.listVolumesResp with
  | Except.error m => (Except.error ("list volumes: " ++ m), [])
  | Except.ok vs => removeVolumesLoop e vs none []

/-- Observable outcome of `Stop` (compose.go lines 418 to 436): the value it
returns to the caller, the internal result of each of the three phases
(which the source only prints as warnings), and the resources each phase
processed. -/
structure StopOutcome where
  result : Except String Unit
  containersPhase : Except String Unit
  networksPhase : Except String Unit
  volumesPhase : Except String Unit
  containersProcessed : List String
  networksProcessed : List String
  volumesProcessed : List String

/-- `Stop`, compose.go lines 418 to 436: each phase error is only printed
("Warning: ... cleanup had errors"), all three phases run unconditionally,
and the function returns `nil`. -/
def stopSem (e : StopEngine) : StopOutcome :=
  { result := Except.ok ()
    containersPhase := (stopContainersSem e).1
    networksPhase := (removeNetworksSem e).1
    volumesPhase := (removeVolumesSem e).1
    containersProcessed := (stopContainersSem e).2
    networksProcessed := (removeNetworksSem e).2
    volumesProcessed := (removeVolumesSem e).2 }

/-- A teardown run in which the only container can never be removed, while
network and volume listing and removal succeed. -/
def c1Container : ContainerSummary :=
  { id := "cid1", names := ["/p-db-1"], state := "running"
    labels := [("com.docker.compose.project", "p")], ports := [] }

/-- Engine oracle for the C1 counterexample run. -/
def c1Engine : StopEngine :=
  { cancelled := false
    listContainersResp := Except.ok [c1Container]
    stopContainerOk := fun _ => false
    killContainerOk := fun _ => true
    removeContainerOk := fun _ _ => false
    listNetworksResp := Except.ok []
    removeNetworkOk := fun _ _ => true
    listVolumesResp := Except.ok [{ name := "p_data" }]
    removeVolumeOk := fun _ => true }

/-- Counterexample to C1 as stated: in a non-cancelled `Stop` run where the
removal of a container fails permanently, the container phase aggregates the
failure and later phases still run (the volume is removed), but `Stop`
returns success to the caller: no `PartialCleanup` error wrapping the
failures is returned, contradicting the claim. -/
theorem stop_returns_ok_despite_removal_failure :
    (stopSem c1Engine).containersPhase = Except.error "remove container /p-db-1"
    ∧ (stopSem c1Engine).result = Except.ok ()
    ∧ (stopSem c1Engine).volumesProcessed = ["p_data"] :=
  ⟨rfl, rfl, rfl⟩

theorem stopContainersLoop_processed (e : StopEngine) (hc : e.cancelled = false) :
    ∀ (cs : List ContainerSummary) (lastErr : Option String) (processed : List String),
      (stopContainersLoop e cs lastErr processed).2 = processed ++ cs.map (fun c => c.id) := by
  intro cs
  induction cs with
  | nil => intro lastErr processed; simp [stopContainersLoop]
  | cons c rest ih =>
    intro lastErr processed
    simp only [stopContainersLoop, hc, Bool.false_eq_true, if_false]
    rw [ih]
    simp

/-- Claim C1 (amended): in a non-cancelled `Stop` run, every listed container
is processed even when individual removals fail, all later phases are still
executed, and `Stop` never fails the overall call: it always returns success
(`nil`).  The aggregated removal failures remain internal to each phase
(printed as warnings) and are not returned as a `PartialCleanup` error. -/
theorem stop_attempts_all_phases_and_returns_ok (e : StopEngine)
    (cs : List ContainerSummary) (hc : e.cancelled = false)
    (hl : e.listContainersResp = Except.ok cs) :
    (stopSem e).result = Except.ok ()
    ∧ (stopSem e).containersProcessed = cs.map (fun c => c.id)
    ∧ (stopSem e).networksPhase = (removeNetworksSem e).1
    ∧ (stopSem e).volumesPhase = (removeVolumesSem e).1 := by
  refine ⟨rfl, ?_, rfl, rfl⟩
  show (stopContainersSem e).2 = cs.map (fun c => c.id)
  rw [stopContainersSem, hl]
  exact stopContainersLoop_processed e hc cs none []

/-- Witness for the amended C1 at the concrete failing engine. -/
theorem stop_attempts_all_phases_and_returns_ok_witness :
    (stopSem c1Engine).result = Except.ok ()
    ∧ (stopSem c1Engine).containersProcessed = [c1Container].map (fun c => c.id)
    ∧ (stopSem c1Engine).networksPhase = (removeNetworksSem c1Engine).1
    ∧ (stopSem c1Engine).volumesPhase = (removeVolumesSem c1Engine).1 :=
  stop_attempts_all_phases_and_returns_ok c1Engine [c1Container] rfl rfl

/-! ### Status reader (`Status`, compose.go lines 602 to 656) -/

/-- Outcome of `ContainerInspect` as far as `Status` reads it: an error, a
nil `State`, a nil `State.Health`, or a health status string. -/
inductive InspectResult where
  | err
  | stateNil
  | healthNil
  | health (status : String)
deriving DecidableEq

/-- Health derivation, compose.go lines 638 to 643: the default is "none"
(no healthcheck configured) and it is kept whenever the inspection returns
an error, a nil state, or a nil health struct. -/
def healthFromInspect : InspectResult → String
  | InspectResult.health s => s
  | _ => "none"

/-- Port list construction, compose.go lines 626 to 633: ports without a
public binding are omitted. -/
def buildPortStrings (ports : List PortInfo) : List String :=
  ports.filterMap (fun p =>
    if p.publicPort > 0 then
      some (p.ip ++ ":" ++ toString p.publicPort ++ "->" ++
        toString p.privatePort ++ "/" ++ p.protocol)
    else none)

/-- `deriveHealthURL`, compose.go lines 779 to 806. -/
def deriveHealthURL (serviceName : String) (ports : List String) : String :=
  match ports with
  | [] => ""
  | firstPort :: _ =>
    match firstPort.splitOn ":" with
    | _ :: second :: _ =>
      match second.splitOn "->" with
      | [] => ""
      | hostPort :: _ =>
        match serviceName with
        | "db" => "postgres://localhost:" ++ hostPort
        | "jaeger" => "http://localhost:" ++ hostPort
        | "prometheus" => "http://localhost:" ++ hostPort
        | "otel-collector" => ""
        | _ => "http://localhost:" ++ hostPort
    | _ => ""

/-- Per-service runtime view (`ServiceInfo`, compose.go lines 38 to 45). -/
structure ServiceInfo where
  name : String
  state : String
  health : String
  ports : List String
  healthURL : String
  containerID : String
deriving DecidableEq

/-- Outcome of a Go computation that can return a value, return an error,
or panic at runtime. -/
inductive GoResult (α : Type) where
  | ok (a : α)
  | panic
  | error (e : String)
deriving DecidableEq

/-- Go map assignment on the `Services` map of `ServiceStatus`: later
containers with the same service label overwrite earlier ones. -/
def mapSet (m : List (String × ServiceInfo)) (k : String) (v : ServiceInfo) :
    List (String × ServiceInfo) :=
  if m.any (fun p => p.1 == k) then
    m.map (fun p => if p.1 == k then (k, v) else p)
  else m ++ [(k, v)]

/-- The container loop of `Status`, compose.go lines 620 to 653.  A
container without a service label is skipped.  The Go code slices
`c.ID[:12]` when building the `ServiceInfo`, which panics at runtime when
the id is shorter than 12 bytes; that outcome is `GoResult.panic`. -/
def statusCore (inspect : String → InspectResult) :
    List ContainerSummary → List (String × ServiceInfo) →
      GoResult (List (String × ServiceInfo))
  | [], acc => GoResult.ok acc
  | c :: rest, acc =>
    if getLabelD c.labels "com.docker.compose.service" == "" then
      statusCore inspect rest acc
    else
      if 12 ≤ c.id.length then
        statusCore inspect rest
          (mapSet acc (getLabelD c.labels "com.docker.compose.service")
            { name := getLabelD c.labels "com.docker.compose.service"
              state := c.state
              health := healthFromInspect (inspect c.id)
              ports := buildPortStrings c.ports
              healthURL := deriveHealthURL
                (getLabelD c.labels "com.docker.compose.service")
                (buildPortStrings c.ports)
              containerID := c.id.take 12 })
      else GoResult.panic

/-- `Status`, compose.go lines 602 to 656, given the `ContainerList`
response and the inspection oracle. -/
def statusSem (inspect : String → InspectResult)
    (listResp : Except String (List ContainerSummary)) :
    GoResult (List (String × ServiceInfo)) :=
  match listResp with
  | Except.error m => GoResult.error ("list containers: " ++ m)
  | Except.ok cs => statusCore inspect cs []

/-! ### Health aggregator (`WaitForHealthy`, compose.go lines 697 to 740) -/

/-- One poll evaluation of `WaitForHealthy` (compose.go lines 711 to 727):
a service is acceptable when running and its health is "none" (no
healthcheck) or "healthy"; the poll succeeds when additionally the number
of observed services equals the number of declared services. -/
def pollAccept (svcs : List ServiceInfo) (declared : Nat) : Bool :=
  svcs.all (fun svc =>
    svc.state == "running" && (svc.health == "none" || svc.health == "healthy"))
    && svcs.length == declared

/-- `WaitForHealthy`, compose.go lines 697 to 740, over the sequence of
`Status` observations the polling loop makes before its deadline: a failed
status fetch aborts with its error, a passing poll returns success, and an
exhausted sequence is the timeout (a cancellation surfaces as an error
observation). -/
def waitForHealthySem (declared : Nat) :
    List (Except String (List ServiceInfo)) → Except String Unit
  | [] => Except.error "timeout waiting for services to be healthy"
  | Except.error m :: _ => Except.error m
  | Except.ok obs :: rest =>
    if pollAccept obs declared then Except.ok ()
    else waitForHealthySem declared rest

/-- Claim C3: `waitForHealthy` returns success only if at some poll the
number of observed services equals the number of declared services and
every observed service is running with health "none" (no healthcheck) or
"healthy".  In particular the values "starting" and "unhealthy" prevent
success, and a declared service that was never started leaves the observed
count below the declared count. -/
theorem waitForHealthy_success_characterization (declared : Nat)
    (polls : List (Except String (List ServiceInfo)))
    (h : waitForHealthySem declared polls = Except.ok ()) :
    ∃ obs, Except.ok obs ∈ polls ∧ obs.length = declared ∧
      ∀ svc ∈ obs, svc.state = "running" ∧
        (svc.health = "none" ∨ svc.health = "healthy") := by
  induction polls with
  | nil => exact absurd h (by simp [waitForHealthySem])
  | cons p rest ih =>
    cases p with
    | error m => exact absurd h (by simp [waitForHealthySem])
    | ok obs =>
      by_cases hp : pollAccept obs declared = true
      · simp only [pollAccept, Bool.and_eq_true, List.all_eq_true, Bool.or_eq_true,
          beq_iff_eq] at hp
        exact ⟨obs, List.mem_cons_self _ _, hp.2, fun svc hs => hp.1 svc hs⟩
      · simp only [waitForHealthySem] at h
        rw [if_neg hp] at h
        obtain ⟨obs', hmem, hrest⟩ := ih h
        exact ⟨obs', List.mem_cons_of_mem _ hmem, hrest⟩

/-- A healthy running observation used as concrete input. -/
def c3Info : ServiceInfo :=
  { name := "api", state := "running", health := "healthy", ports := []
    healthURL := "", containerID := "abcdefabcdef" }

/-- Witness for C3 at a concrete passing poll. -/
theorem waitForHealthy_success_characterization_witness :
    ∃ obs, (Except.ok obs : Except String (List ServiceInfo)) ∈ [Except.ok [c3Info]]
      ∧ obs.length = 1 ∧
      ∀ svc ∈ obs, svc.state = "running" ∧
        (svc.health = "none" ∨ svc.health = "healthy") :=
  waitForHealthy_success_characterization 1 [Except.ok [c3Info]] rfl

/-- A running container with a service label whose inspection will fail. -/
def c4Container : ContainerSummary :=
  { id := "abcdefabcdef", names := ["/p-api-1"], state := "running"
    labels := [("com.docker.compose.service", "api")], ports := [] }

/-- The ServiceInfo that `Status` reports for `c4Container` when its
inspection fails. -/
def c4Info : ServiceInfo :=
  { name := "api", state := "running", health := "none", ports := []
    healthURL := "", containerID := "abcdefabcdef" }

/-- Counterexample to C4 as stated: when inspecting the only container
fails, the status poll is not aborted, but the service is reported with
health "none" (the no-healthcheck value), so the poll declares the
one-service project healthy on the strength of the failed inspection,
contradicting the claim that the service counts as not-yet-healthy. -/
theorem status_failed_inspection_can_pass_poll :
    statusCore (fun _ => InspectResult.err) [c4Container] [] =
      GoResult.ok [("api", c4Info)]
    ∧ c4Info.health = "none"
    ∧ waitForHealthySem 1 [Except.ok [c4Info]] = Except.ok () :=
  ⟨rfl, rfl, rfl⟩

/-- Claim C4 (amended): a failed inspection of a single container does not
abort the status poll, and the service is reported with health "none" —
the same value as having no healthcheck — so a running service whose
inspection failed is treated as acceptable by `waitForHealthy` and the
project can be declared healthy. -/
theorem status_failed_inspection_reports_none (inspect : String → InspectResult)
    (c : ContainerSummary) (s : String)
    (hs : getLabelD c.labels "com.docker.compose.service" = s) (hne : s ≠ "")
    (hlen : 12 ≤ c.id.length) (herr : inspect c.id = InspectResult.err)
    (hrun : c.state = "running") :
    statusCore inspect [c] [] = GoResult.ok
      [(s, { name := s, state := c.state, health := "none",
             ports := buildPortStrings c.ports,
             healthURL := deriveHealthURL s (buildPortStrings c.ports),
             containerID := c.id.take 12 })]
    ∧ waitForHealthySem 1 [Except.ok
        [{ name := s, state := c.state, health := "none",
           ports := buildPortStrings c.ports,
           healthURL := deriveHealthURL s (buildPortStrings c.ports),
           containerID := c.id.take 12 }]] = Except.ok () := by
  have hcond : ¬ ((s == "") = true) := by simp [hne]
  constructor
  · simp only [statusCore, hs, herr, healthFromInspect, mapSet]
    rw [if_neg hcond, if_pos hlen]
    simp
  · have haccept : pollAccept
        [{ name := s, state := c.state, health := "none",
           ports := buildPortStrings c.ports,
           healthURL := deriveHealthURL s (buildPortStrings c.ports),
           containerID := c.id.take 12 }] 1 = true := by
      simp [pollAccept, hrun]
    simp [waitForHealthySem, haccept]

/-- Witness for the amended C4 at the concrete container. -/
theorem status_failed_inspection_reports_none_witness :
    statusCore (fun _ => InspectResult.err) [c4Container] [] = GoResult.ok
      [("api", { name := "api", state := c4Container.state, health := "none",
                 ports := buildPortStrings c4Container.ports,
                 healthURL := deriveHealthURL "api" (buildPortStrings c4Container.ports),
                 containerID := c4Container.id.take 12 })]
    ∧ waitForHealthySem 1 [Except.ok
        [{ name := "api", state := c4Container.state, health := "none",
           ports := buildPortStrings c4Container.ports,
           healthURL := deriveHealthURL "api" (buildPortStrings c4Container.ports),
           containerID := c4Container.id.take 12 }]] = Except.ok () :=
  status_failed_inspection_reports_none (fun _ => InspectResult.err) c4Container "api"
    rfl (by decide) (by decide) rfl rfl

/-- A listed container whose engine-reported id is shorter than 12 bytes. -/
def c10Short : ContainerSummary :=
  { id := "abc", names := ["/p-x-1"], state := "running"
    labels := [("com.docker.compose.service", "x")], ports := [] }

/-- A listed container with a 14-byte id. -/
def c10Good : ContainerSummary :=
  { id := "0123456789abcd", names := ["/p-y-1"], state := "running"
    labels := [("com.docker.compose.service", "y")], ports := [] }

theorem statusCore_ok_of_long_ids (inspect : String → InspectResult) :
    ∀ (cs : List ContainerSummary) (acc : List (String × ServiceInfo)),
      (∀ c ∈ cs, 12 ≤ c.id.length) →
      ∃ m, statusCore inspect cs acc = GoResult.ok m := by
  intro cs
  induction cs with
  | nil => intro acc _; exact ⟨acc, rfl⟩
  | cons c rest ih =>
    intro acc h
    by_cases hsvc : (getLabelD c.labels "com.docker.compose.service" == "") = true
    · simp only [statusCore]
      rw [if_pos hsvc]
      exact ih acc (fun c' hc' => h c' (List.mem_cons_of_mem _ hc'))
    · simp only [statusCore]
      rw [if_neg hsvc, if_pos (h c (List.mem_cons_self _ _))]
      exact ih _ (fun c' hc' => h c' (List.mem_cons_of_mem _ hc'))

/-- Claim C10: `Status` builds each ContainerID as exactly the first 12
characters of the engine-reported id.  The indexing is in bounds whenever
every listed container id has length at least 12, in which case the loop
returns a result; for a shorter id carrying a service label the operation
panics rather than returning an error value. -/
theorem status_short_id_panics :
    (∀ (inspect : String → InspectResult) (cs : List ContainerSummary),
        (∀ c ∈ cs, 12 ≤ c.id.length) →
        ∃ m, statusCore inspect cs [] = GoResult.ok m)
    ∧ statusCore (fun _ => InspectResult.err) [c10Short] [] = GoResult.panic
    ∧ statusCore (fun _ => InspectResult.err) [c10Good] [] = GoResult.ok
        [("y", { name := "y", state := "running", health := "none", ports := [],
                 healthURL := "", containerID := "0123456789ab" })] :=
  ⟨fun inspect cs h => statusCore_ok_of_long_ids inspect cs [] h, rfl, rfl⟩

/-- Witness for C10: the in-bounds half applied at a concrete container. -/
theorem status_short_id_panics_witness :
    ∃ m, statusCore (fun _ => InspectResult.err) [c10Good] [] = GoResult.ok m :=
  status_short_id_panics.1 (fun _ => InspectResult.err) [c10Good] (by decide)

/-! ### Environment list construction (`buildEnvList`, compose.go lines 764 to 777) -/

/-- `buildEnvList`: an entry with a defined value contributes `k=v`; an
entry declared without a value is resolved through `os.LookupEnv` against
the host process environment `hostEnv` and is dropped when the key is
absent there. -/
def buildEnvList (hostEnv : String → Option String) :
    List (String × Option String) → List String
  | [] => []
  | (k, some v) :: rest => (k ++ "=" ++ v) :: buildEnvList hostEnv rest
  | (k, none) :: rest =>
    match hostEnv k with
    | some v => (k ++ "=" ++ v) :: buildEnvList hostEnv rest
    | none => buildEnvList hostEnv rest

theorem buildEnvList_eq_filterMap (hostEnv : String → Option String)
    (env : List (String × Option String)) :
    buildEnvList hostEnv env = env.filterMap (fun p =>
      match p.2 with
      | some v => some (p.1 ++ "=" ++ v)
      | none =>
        match hostEnv p.1 with
        | some v => some (p.1 ++ "=" ++ v)
        | none => none) := by
  induction env with
  | nil => rfl
  | cons p rest ih =>
    obtain ⟨k, vo⟩ := p
    cases vo with
    | some v => simp [buildEnvList, List.filterMap_cons, ih]
    | none =>
      cases hh : hostEnv k with
      | some v => simp [buildEnvList, List.filterMap_cons, hh, ih]
      | none => simp [buildEnvList, List.filterMap_cons, hh, ih]

/-- Claim C8: membership in the env list handed to `ContainerCreate`: a
defined entry `(k, v)` contributes `k=v`; an entry declared without a value
contributes `k=h` exactly when the host process environment binds `k` to
`h`, and contributes nothing when `k` is absent from the host process
environment. -/
theorem buildEnvList_mem (hostEnv : String → Option String)
    (env : List (String × Option String)) (s : String) :
    s ∈ buildEnvList hostEnv env ↔
      ∃ k v, s = k ++ "=" ++ v ∧
        ((k, some v) ∈ env ∨ ((k, none) ∈ env ∧ hostEnv k = some v)) := by
  rw [buildEnvList_eq_filterMap, List.mem_filterMap]
  constructor
  · rintro ⟨⟨k, vo⟩, hin, hout⟩
    cases vo with
    | some v =>
      dsimp only at hout
      simp only [Option.some.injEq] at hout
      exact ⟨k, v, hout.symm, Or.inl hin⟩
    | none =>
      dsimp only at hout
      cases hh : hostEnv k with
      | some v =>
        rw [hh] at hout
        simp only [Option.some.injEq] at hout
        exact ⟨k, v, hout.symm, Or.inr ⟨hin, hh⟩⟩
      | none =>
        rw [hh] at hout
        exact absurd hout (by simp)
  · rintro ⟨k, v, rfl, hin | ⟨hin, hh⟩⟩
    · exact ⟨(k, some v), hin, rfl⟩
    · exact ⟨(k, none), hin, by simp [hh]⟩

/-! ### Lifecycle manager (`Start`, compose.go lines 108 to 227, and
`startService`, compose.go lines 290 to 415)

The in-memory caches `networkIDs` and `volumeNames` that `Start` fills are
write-only as far as the claims go (teardown rediscovers resources by
label), so they are not tracked here. -/

/-- The fields of a declared network read by `Start`
(compose-go `types.NetworkConfig`). -/
structure NetworkConfig where
  labels : List (String × String)
  driver : String
  enableIPv6 : Option Bool
deriving DecidableEq

/-- The fields of a declared volume read by `Start`. -/
structure VolumeConfig where
  labels : List (String × String)
  driver : String
deriving DecidableEq

/-- The fields of a declared service read by `Start` and the planner
(compose-go `types.ServiceConfig`); `containerName` is `""` when the
compose file sets no `container_name`. -/
structure ServiceConfig where
  name : String
  containerName : String
  image : String
  labels : List (String × String)
  environment : List (String × Option String)
  dependsOn : List String
deriving DecidableEq

/-- The project as loaded from the compose file; the network and volume
association lists carry the enumeration order of the corresponding Go maps. -/
structure Project where
  name : String
  networks : List (String × NetworkConfig)
  volumes : List (String × VolumeConfig)
  services : List ServiceConfig

/-- Oracles for every engine call `Start` makes, plus the host process
environment read by `os.LookupEnv` in `buildEnvList`.  The list responses
model the engine filter results, which Docker may match by substring. -/
structure StartEngine where
  listNetworksResp : String → Except String (List NetworkSummary)
  createNetworkResp : String → Except String String
  listVolumesResp : String → Except String (List VolumeSummary)
  createVolumeResp : String → Except String Unit
  listContainersResp : String → Except String (List ContainerSummary)
  startContainerResp : String → Except String Unit
  imagePresent : String → Bool
  pullImageResp : String → Except String Unit
  createContainerResp : String → Except String String
  hostEnv : String → Option String

/-- A resource creation performed against the engine, recording the labels
(and for containers the env list) passed to the create call. -/
inductive CreatedResource where
  | network (fullName declaredName : String) (labels : List (String × String))
  | volume (fullName declaredName : String) (labels : List (String × String))
  | containerRes (containerName svcName : String) (labels : List (String × String))
      (env : List String)
deriving DecidableEq

/-- Result of one step of `Start` together with the creations it performed. -/
structure StepOutcome where
  result : Except String Unit
  created : List CreatedResource

/-- Sequential loop over project resources: the first failing step aborts
the loop (the Go code returns from inside the loop), keeping the creations
performed so far. -/
def runAll {α : Type} (f : α → StepOutcome) : List α → StepOutcome
  | [] => { result := Except.ok (), created := [] }
  | a :: rest =>
    match (f a).result with
    | Except.error m => { result := Except.error m, created := (f a).created }
    | Except.ok _ =>
      { result := (runAll f rest).result
        created := (f a).created ++ (runAll f rest).created }

/-- Labels attached to a created network, compose.go lines 147 to 153: the
declared labels are copied into a fresh map and the project and network
labels are then set, overriding any user binding of the same keys. -/
def mkNetworkLabels (user : List (String × String)) (proj netName : String) :
    List (String × String) :=
  setLabel (setLabel user "com.docker.compose.project" proj)
    "com.docker.compose.network" netName

/-- Labels attached to a created volume, compose.go lines 196 to 202. -/
def mkVolumeLabels (user : List (String × String)) (proj volName : String) :
    List (String × String) :=
  setLabel (setLabel user "com.docker.compose.project" proj)
    "com.docker.compose.volume" volName

/-- Labels attached to a created container, compose.go lines 330 to 346:
the service labels, then the project and service labels on top. -/
def mkContainerLabels (user : List (String × String)) (proj svcName : String) :
    List (String × String) :=
  setLabel (setLabel user "com.docker.compose.project" proj)
    "com.docker.compose.service" svcName

/-- Processing of one declared network (compose.go lines 123 to 171): list
with an anchored name filter, scan the response for an entry whose name is
exactly the scoped name (the Docker filter may still match substrings),
treat the network as existing only when that yields a nonempty id, and
otherwise create it with project and network labels. -/
def startOneNetwork (e : StartEngine) (proj : String) :
    String × NetworkConfig → StepOutcome
  | (netName, cfg) =>
    match e.listNetworksResp (proj ++ "_" ++ netName) with
    | Except.error m =>
      { result := Except.error ("list networks: " ++ m), created := [] }
    | Except.ok resp =>
      if (((resp.find? (fun n => n.name == proj ++ "_" ++ netName)).map
          (fun n => n.id)).getD "") ≠ "" then
        { result := Except.ok (), created := [] }
      else
        match e.createNetworkResp (proj ++ "_" ++ netName) with
        | Except.error m =>
          { result := Except.error ("create network " ++ netName ++ ": " ++ m)
            created := [] }
        | Except.ok _ =>
          { result := Except.ok ()
            created := [CreatedResource.network (proj ++ "_" ++ netName) netName
              (mkNetworkLabels cfg.labels proj netName)] }

/-- Processing of one declared volume (compose.go lines 174 to 215):
existence requires an exact name match in the filter response. -/
def startOneVolume (e : StartEngine) (proj : String) :
    String × VolumeConfig → StepOutcome
  | (volName, cfg) =>
    match e.listVolumesResp (proj ++ "_" ++ volName) with
    | Except.error m =>
      { result := Except.error ("list volumes: " ++ m), created := [] }
    | Except.ok resp =>
      if resp.any (fun v => v.name == proj ++ "_" ++ volName) then
        { result := Except.ok (), created := [] }
      else
        match e.createVolumeResp (proj ++ "_" ++ volName) with
        | Except.error m =>
          { result := Except.error ("create volume " ++ volName ++ ": " ++ m)
            created := [] }
        | Except.ok _ =>
          { result := Except.ok ()
            created := [CreatedResource.volume (proj ++ "_" ++ volName) volName
              (mkVolumeLabels cfg.labels proj volName)] }

/-- Container name resolution, compose.go lines 292 to 296. -/
def containerNameFor (proj : String) (svc : ServiceConfig) : String :=
  if svc.containerName ≠ "" then svc.containerName
  else proj ++ "-" ++ svc.name ++ "-1"

/-- Creation and start of a new container for a service, compose.go lines
329 to 414 (config building, `ContainerCreate`, `ContainerStart`).  When
the create succeeds but the start fails the container nevertheless exists,
so the creation is still recorded. -/
def createAndStart (e : StartEngine) (proj : String) (svc : ServiceConfig)
    (cname : String) : StepOutcome :=
  match e.createContainerResp cname with
  | Except.error m =>
    { result := Except.error ("create container: " ++ m), created := [] }
  | Except.ok cid =>
    match e.startContainerResp cid with
    | Except.error m =>
      { result := Except.error ("start container: " ++ m)
        created := [CreatedResource.containerRes cname svc.name
          (mkContainerLabels svc.labels proj svc.name)
          (buildEnvList e.hostEnv svc.environment)] }
    | Except.ok _ =>
      { result := Except.ok ()
        created := [CreatedResource.containerRes cname svc.name
          (mkContainerLabels svc.labels proj svc.name)
          (buildEnvList e.hostEnv svc.environment)] }

/-- `startService`, compose.go lines 290 to 415.  The existence check
(lines 298 to 317) inspects only `len(containers) > 0` and `containers[0]`:
any nonempty filter response is accepted as the existing container, without
verifying the container name; if that first container is not running it is
started in place.  Only when the response is empty is the image ensured and
a new container created. -/
def startServiceSem (e : StartEngine) (proj : String) (svc : ServiceConfig) :
    StepOutcome :=
  match e.listContainersResp (containerNameFor proj svc) with
  | Except.error m =>
    { result := Except.error ("list containers: " ++ m), created := [] }
  | Except.ok (c :: _) =>
    if c.state ≠ "running" then
      match e.startContainerResp c.id with
      | Except.error m =>
        { result := Except.error ("start existing container: " ++ m), created := [] }
      | Except.ok _ => { result := Except.ok (), created := [] }
    else { result := Except.ok (), created := [] }
  | Except.ok [] =>
    if e.imagePresent svc.image then
      createAndStart e proj svc (containerNameFor proj svc)
    else
      match e.pullImageResp svc.image with
      | Except.error m =>
        { result := Except.error ("pull image " ++ svc.image ++ ": " ++ m)
          created := [] }
      | Except.ok _ => createAndStart e proj svc (containerNameFor proj svc)

/-- Error wrapping of a failed service start in the `Start` loop,
compose.go lines 219 to 223. -/
def startOneService (e : StartEngine) (proj : String) (svc : ServiceConfig) :
    StepOutcome :=
  match (startServiceSem e proj svc).result with
  | Except.error m =>
    { result := Except.error ("start service " ++ svc.name ++ ": " ++ m)
      created := (startServiceSem e proj svc).created }
  | Except.ok _ => startServiceSem e proj svc

/-- The `depends_on` key set of a project service. -/
def depsOf (p : Project) (n : String) : List String :=
  match p.services.find? (fun s => s.name == n) with
  | some s => s.dependsOn
  | none => []

/-- Services in planner order (compose.go line 218): the planner works on
service names, which are mapped back to their configurations. -/
def orderedServices (p : Project) : List ServiceConfig :=
  (sortServicesByDependency (depsOf p) (p.services.map (fun s => s.name))).filterMap
    (fun n => p.services.find? (fun s => s.name == n))

/-- Sequencing of two phases of `Start`: a failed phase returns immediately
(the Go code returns from inside the phase loop), so the later phase does
not run. -/
def stepSeq (a b : StepOutcome) : StepOutcome :=
  match a.result with
  | Except.error _ => a
  | Except.ok _ => { result := b.result, created := a.created ++ b.created }

/-- The three phases of `Start` in order: networks, then volumes, then
services in planner order. -/
def startCore (e : StartEngine) (p : Project) : StepOutcome :=
  stepSeq (runAll (startOneNetwork e p.name) p.networks)
    (stepSeq (runAll (startOneVolume e p.name) p.volumes)
      (runAll (startOneService e p.name) (orderedServices p)))

/-- Observable outcome of `Start`: the returned error, the resources
created, and the rollback call: `none` when no rollback ran, otherwise the
discarded result of `s.Stop`. -/
structure StartOutcome where
  result : Except String Unit
  created : List CreatedResource
  rollback : Option (Except String Unit)

/-- `Start`, compose.go lines 108 to 227: when any step fails, the deferred
cleanup (lines 112 to 120) invokes `Stop` on a fresh background context and
discards its result (`_ = s.Stop(cleanupCtx)`); the original error is
returned unchanged. -/
def startSem (e : StartEngine) (se : StopEngine) (p : Project) : StartOutcome :=
  match (startCore e p).result with
  | Except.error m =>
    { result := Except.error m, created := (startCore e p).created
      rollback := some (stopSem se).result }
  | Except.ok _ =>
    { result := Except.ok (), created := (startCore e p).created, rollback := none }

/-- Claim C2: whenever `start` returns an error, the full `Stop` teardown
was invoked on the partially constructed project, the returned error is
exactly the error of the failing step, and the returned result does not
depend on the rollback engine at all: the best-effort rollback can neither
replace nor mask the original cause. -/
theorem start_error_rolls_back_and_preserves_cause (e : StartEngine)
    (se se₂ : StopEngine) (p : Project) (m : String)
    (h : (startSem e se p).result = Except.error m) :
    ((startSem e se p).rollback).isSome = true
    ∧ (startCore e p).result = Except.error m
    ∧ (startSem e se p).result = (startSem e se₂ p).result := by
  cases hc : (startCore e p).result with
  | error m' =>
    have hs : (startSem e se p).result = Except.error m' := by
      simp [startSem, hc]
    rw [hs] at h
    injection h with hm
    subst hm
    exact ⟨by simp [startSem, hc], rfl, by simp [startSem, hc]⟩
  | ok _ =>
    have hs : (startSem e se p).result = Except.ok () := by
      simp [startSem, hc]
    rw [hs] at h
    exact absurd h (by simp)

/-- A project whose network listing will fail. -/
def c2Project : Project :=
  { name := "p"
    networks := [("default", { labels := [], driver := "bridge", enableIPv6 := none })]
    volumes := [], services := [] }

/-- A start engine that fails at the very first engine call. -/
def c2Engine : StartEngine :=
  { listNetworksResp := fun _ => Except.error "boom"
    createNetworkResp := fun _ => Except.ok "nid"
    listVolumesResp := fun _ => Except.ok []
    createVolumeResp := fun _ => Except.ok ()
    listContainersResp := fun _ => Except.ok []
    startContainerResp := fun _ => Except.ok ()
    imagePresent := fun _ => true
    pullImageResp := fun _ => Except.ok ()
    createContainerResp := fun _ => Except.ok "cid"
    hostEnv := fun _ => none }

/-- A rollback engine with nothing to remove. -/
def c2StopA : StopEngine :=
  { cancelled := false
    listContainersResp := Except.ok []
    stopContainerOk := fun _ => true
    killContainerOk := fun _ => true
    removeContainerOk := fun _ _ => true
    listNetworksResp := Except.ok []
    removeNetworkOk := fun _ _ => true
    listVolumesResp := Except.ok []
    removeVolumeOk := fun _ => true }

/-- A rollback engine whose every removal fails. -/
def c2StopB : StopEngine :=
  { cancelled := false
    listContainersResp := Except.error "down"
    stopContainerOk := fun _ => false
    killContainerOk := fun _ => false
    removeContainerOk := fun _ _ => false
    listNetworksResp := Except.error "down"
    removeNetworkOk := fun _ _ => false
    listVolumesResp := Except.error "down"
    removeVolumeOk := fun _ => false }

/-- Witness for C2 at a concrete failing start. -/
theorem start_error_rolls_back_and_preserves_cause_witness :
    ((startSem c2Engine c2StopA c2Project).rollback).isSome = true
    ∧ (startCore c2Engine c2Project).result = Except.error "list networks: boom"
    ∧ (startSem c2Engine c2StopA c2Project).result
        = (startSem c2Engine c2StopB c2Project).result :=
  start_error_rolls_back_and_preserves_cause c2Engine c2StopA c2StopB c2Project
    "list networks: boom" rfl

/-- Correct labeling of one created resource: the project label equals the
project name and the role label equals the declared name; network and
volume names are project-scoped. -/
def wellLabeled (proj : String) : CreatedResource → Prop
  | CreatedResource.network fullName declaredName labels =>
    fullName = proj ++ "_" ++ declaredName
    ∧ getLabel? labels "com.docker.compose.project" = some proj
    ∧ getLabel? labels "com.docker.compose.network" = some declaredName
  | CreatedResource.volume fullName declaredName labels =>
    fullName = proj ++ "_" ++ declaredName
    ∧ getLabel? labels "com.docker.compose.project" = some proj
    ∧ getLabel? labels "com.docker.compose.volume" = some declaredName
  | CreatedResource.containerRes _ svcName labels _ =>
    getLabel? labels "com.docker.compose.project" = some proj
    ∧ getLabel? labels "com.docker.compose.service" = some svcName

theorem mkNetworkLabels_lookup (user : List (String × String)) (proj netName : String) :
    getLabel? (mkNetworkLabels user proj netName) "com.docker.compose.project" = some proj
    ∧ getLabel? (mkNetworkLabels user proj netName) "com.docker.compose.network"
        = some netName := by
  unfold mkNetworkLabels
  refine ⟨?_, getLabel?_setLabel_same _ _ _⟩
  rw [getLabel?_setLabel_ne _ _ _ _ (by decide)]
  exact getLabel?_setLabel_same _ _ _

theorem mkVolumeLabels_lookup (user : List (String × String)) (proj volName : String) :
    getLabel? (mkVolumeLabels user proj volName) "com.docker.compose.project" = some proj
    ∧ getLabel? (mkVolumeLabels user proj volName) "com.docker.compose.volume"
        = some volName := by
  unfold mkVolumeLabels
  refine ⟨?_, getLabel?_setLabel_same _ _ _⟩
  rw [getLabel?_setLabel_ne _ _ _ _ (by decide)]
  exact getLabel?_setLabel_same _ _ _

theorem mkContainerLabels_lookup (user : List (String × String)) (proj svcName : String) :
    getLabel? (mkContainerLabels user proj svcName) "com.docker.compose.project" = some proj
    ∧ getLabel? (mkContainerLabels user proj svcName) "com.docker.compose.service"
        = some svcName := by
  unfold mkContainerLabels
  refine ⟨?_, getLabel?_setLabel_same _ _ _⟩
  rw [getLabel?_setLabel_ne _ _ _ _ (by decide)]
  exact getLabel?_setLabel_same _ _ _

theorem runAll_created_mem {α : Type} (f : α → StepOutcome) :
    ∀ (l : List α) (r : CreatedResource),
      r ∈ (runAll f l).created → ∃ a ∈ l, r ∈ (f a).created := by
  intro l
  induction l with
  | nil => intro r hr; simp [runAll] at hr
  | cons a rest ih =>
    intro r hr
    cases hfa : (f a).result with
    | error m =>
      simp only [runAll, hfa] at hr
      exact ⟨a, List.mem_cons_self _ _, hr⟩
    | ok _ =>
      simp only [runAll, hfa] at hr
      rcases List.mem_append.mp hr with h1 | h2
      · exact ⟨a, List.mem_cons_self _ _, h1⟩
      · obtain ⟨a', ha', hr'⟩ := ih r h2
        exact ⟨a', List.mem_cons_of_mem _ ha', hr'⟩

theorem stepSeq_created_mem (a b : StepOutcome) (r : CreatedResource)
    (hr : r ∈ (stepSeq a b).created) : r ∈ a.created ∨ r ∈ b.created := by
  cases ha : a.result with
  | error m =>
    simp only [stepSeq, ha] at hr
    exact Or.inl hr
  | ok _ =>
    simp only [stepSeq, ha] at hr
    exact List.mem_append.mp hr

theorem startOneNetwork_created (e : StartEngine) (proj netName : String)
    (cfg : NetworkConfig) (r : CreatedResource)
    (hr : r ∈ (startOneNetwork e proj (netName, cfg)).created) :
    r = CreatedResource.network (proj ++ "_" ++ netName) netName
      (mkNetworkLabels cfg.labels proj netName) := by
  cases hl : e.listNetworksResp (proj ++ "_" ++ netName) with
  | error m =>
    simp only [startOneNetwork, hl] at hr
    simp at hr
  | ok resp =>
    simp only [startOneNetwork, hl] at hr
    by_cases hex : (((resp.find? (fun n => n.name == proj ++ "_" ++ netName)).map
        (fun n => n.id)).getD "") ≠ ""
    · rw [if_pos hex] at hr
      simp at hr
    · rw [if_neg hex] at hr
      cases hcr : e.createNetworkResp (proj ++ "_" ++ netName) with
      | error m =>
        simp only [hcr] at hr
        simp at hr
      | ok nid =>
        simp only [hcr] at hr
        simpa using hr

theorem startOneVolume_created (e : StartEngine) (proj volName : String)
    (cfg : VolumeConfig) (r : CreatedResource)
    (hr : r ∈ (startOneVolume e proj (volName, cfg)).created) :
    r = CreatedResource.volume (proj ++ "_" ++ volName) volName
      (mkVolumeLabels cfg.labels proj volName) := by
  cases hl : e.listVolumesResp (proj ++ "_" ++ volName) with
  | error m =>
    simp only [startOneVolume, hl] at hr
    simp at hr
  | ok resp =>
    simp only [startOneVolume, hl] at hr
    by_cases hex : (resp.any (fun v => v.name == proj ++ "_" ++ volName)) = true
    · rw [if_pos hex] at hr
      simp at hr
    · rw [if_neg hex] at hr
      cases hcr : e.createVolumeResp (proj ++ "_" ++ volName) with
      | error m =>
        simp only [hcr] at hr
        simp at hr
      | ok _ =>
        simp only [hcr] at hr
        simpa using hr

theorem createAndStart_created (e : StartEngine) (proj : String)
    (svc : ServiceConfig) (cname : String) (r : CreatedResource)
    (hr : r ∈ (createAndStart e proj svc cname).created) :
    r = CreatedResource.containerRes cname svc.name
      (mkContainerLabels svc.labels proj svc.name)
      (buildEnvList e.hostEnv svc.environment) := by
  cases hc : e.createContainerResp cname with
  | error m =>
    simp only [createAndStart, hc] at hr
    simp at hr
  | ok cid =>
    cases hs : e.startContainerResp cid with
    | error m =>
      simp only [createAndStart, hc, hs] at hr
      simpa using hr
    | ok _ =>
      simp only [createAndStart, hc, hs] at hr
      simpa using hr

theorem startServiceSem_created (e : StartEngine) (proj : String)
    (svc : ServiceConfig) (r : CreatedResource)
    (hr : r ∈ (startServiceSem e proj svc).created) :
    r = CreatedResource.containerRes (containerNameFor proj svc) svc.name
      (mkContainerLabels svc.labels proj svc.name)
      (buildEnvList e.hostEnv svc.environment) := by
  cases hl : e.listContainersResp (containerNameFor proj svc) with
  | error m =>
    simp only [startServiceSem, hl] at hr
    simp at hr
  | ok cs =>
    cases cs with
    | cons c rest =>
      simp only [startServiceSem, hl] at hr
      by_cases hst : c.state ≠ "running"
      · rw [if_pos hst] at hr
        cases hsr : e.startContainerResp c.id with
        | error m =>
          simp only [hsr] at hr
          simp at hr
        | ok _ =>
          simp only [hsr] at hr
          simp at hr
      · rw [if_neg hst] at hr
        simp at hr
    | nil =>
      simp only [startServiceSem, hl] at hr
      by_cases him : e.imagePresent svc.image = true
      · rw [if_pos him] at hr
        exact createAndStart_created e proj svc _ r hr
      · rw [if_neg him] at hr
        cases hpull : e.pullImageResp svc.image with
        | error m =>
          simp only [hpull] at hr
          simp at hr
        | ok _ =>
          simp only [hpull] at hr
          exact createAndStart_created e proj svc _ r hr

theorem startOneService_created_sub (e : StartEngine) (proj : String)
    (svc : ServiceConfig) (r : CreatedResource)
    (hr : r ∈ (startOneService e proj svc).created) :
    r ∈ (startServiceSem e proj svc).created := by
  cases hs : (startServiceSem e proj svc).result with
  | error m => simpa only [startOneService, hs] using hr
  | ok _ =>
    simp only [startOneService, hs] at hr
    exact hr

/-- Claim C7: every network, volume, and container that `Start` creates
carries the label `com.docker.compose.project=<project name>` together
with its role label: `com.docker.compose.network=<name>` on each network,
`com.docker.compose.volume=<name>` on each named volume, and
`com.docker.compose.service=<name>` on each container; networks and
volumes are created under their project-scoped names. -/
theorem start_created_resources_well_labeled (e : StartEngine) (se : StopEngine)
    (p : Project) (r : CreatedResource) (hr : r ∈ (startSem e se p).created) :
    wellLabeled p.name r := by
  have hcore : r ∈ (startCore e p).created := by
    cases hc : (startCore e p).result with
    | error m => simpa only [startSem, hc] using hr
    | ok _ => simpa only [startSem, hc] using hr
  unfold startCore at hcore
  rcases stepSeq_created_mem _ _ r hcore with hn | hvc
  · obtain ⟨a, _, hr'⟩ := runAll_created_mem _ _ r hn
    obtain ⟨netName, cfg⟩ := a
    rw [startOneNetwork_created e p.name netName cfg r hr']
    exact ⟨rfl, (mkNetworkLabels_lookup cfg.labels p.name netName).1,
      (mkNetworkLabels_lookup cfg.labels p.name netName).2⟩
  · rcases stepSeq_created_mem _ _ r hvc with hv | hc
    · obtain ⟨a, _, hr'⟩ := runAll_created_mem _ _ r hv
      obtain ⟨volName, cfg⟩ := a
      rw [startOneVolume_created e p.name volName cfg r hr']
      exact ⟨rfl, (mkVolumeLabels_lookup cfg.labels p.name volName).1,
        (mkVolumeLabels_lookup cfg.labels p.name volName).2⟩
    · obtain ⟨svc, _, hr'⟩ := runAll_created_mem _ _ r hc
      rw [startServiceSem_created e p.name svc r
        (startOneService_created_sub e p.name svc r hr')]
      exact ⟨(mkContainerLabels_lookup svc.labels p.name svc.name).1,
        (mkContainerLabels_lookup svc.labels p.name svc.name).2⟩

/-- A one-network, one-volume, one-service project for concrete runs. -/
def c7Project : Project :=
  { name := "p"
    networks := [("net0", { labels := [("a", "b")], driver := "bridge", enableIPv6 := none })]
    volumes := [("vol0", { labels := [], driver := "local" })]
    services := [{ name := "svc0", containerName := "", image := "img",
                   labels := [], environment := [], dependsOn := [] }] }

/-- An engine on which nothing exists yet and every call succeeds. -/
def c7Engine : StartEngine :=
  { listNetworksResp := fun _ => Except.ok []
    createNetworkResp := fun _ => Except.ok "nid"
    listVolumesResp := fun _ => Except.ok []
    createVolumeResp := fun _ => Except.ok ()
    listContainersResp := fun _ => Except.ok []
    startContainerResp := fun _ => Except.ok ()
    imagePresent := fun _ => true
    pullImageResp := fun _ => Except.ok ()
    createContainerResp := fun _ => Except.ok "cid"
    hostEnv := fun _ => none }

/-- A rollback engine with nothing to remove, for the concrete C7 run. -/
def c7StopEngine : StopEngine :=
  { cancelled := false
    listContainersResp := Except.ok []
    stopContainerOk := fun _ => true
    killContainerOk := fun _ => true
    removeContainerOk := fun _ _ => true
    listNetworksResp := Except.ok []
    removeNetworkOk := fun _ _ => true
    listVolumesResp := Except.ok []
    removeVolumeOk := fun _ => true }

/-- Witness for C7: the network created in a concrete successful run is
well labeled. -/
theorem start_created_resources_well_labeled_witness :
    wellLabeled "p" (CreatedResource.network "p_net0" "net0"
      (mkNetworkLabels [("a", "b")] "p" "net0")) :=
  start_created_resources_well_labeled c7Engine c7StopEngine c7Project
    (CreatedResource.network "p_net0" "net0" (mkNetworkLabels [("a", "b")] "p" "net0"))
    (by decide)

/-- A container whose name `/p-x-10` merely contains the looked-up name
`p-x-1` as a substring, as the unanchored Docker name filter may return. -/
def c5Container : ContainerSummary :=
  { id := "cid555", names := ["/p-x-10"], state := "running", labels := [], ports := [] }

/-- Engine whose name-filtered list responses contain only near-miss names:
`p_net2` for networks, `p_vol2` for volumes, and `/p-x-10` for containers. -/
def c5Engine : StartEngine :=
  { listNetworksResp := fun _ => Except.ok [{ id := "nidA", name := "p_net2" }]
    createNetworkResp := fun _ => Except.ok "nidNew"
    listVolumesResp := fun _ => Except.ok [{ name := "p_vol2" }]
    createVolumeResp := fun _ => Except.ok ()
    listContainersResp := fun _ => Except.ok [c5Container]
    startContainerResp := fun _ => Except.ok ()
    imagePresent := fun _ => true
    pullImageResp := fun _ => Except.ok ()
    createContainerResp := fun _ => Except.ok "cidNew"
    hostEnv := fun _ => none }

/-- The service looked up under the scoped container name `p-x-1`. -/
def c5Svc : ServiceConfig :=
  { name := "x", containerName := "", image := "img", labels := []
    environment := [], dependsOn := [] }

/-- Claim C5 evaluated at the failing input (a code bug): when the engine
filter response for container name `p-x-1` contains only a container whose
actual name is `/p-x-10` (a substring match), `startService` accepts it as
the existing container — it returns success and creates nothing — even
though no listed name equals the scoped name.  The network and volume
checks, by contrast, do verify exact equality: given only the mismatched
names `p_net2` and `p_vol2`, `Start` proceeds to create `p_net1` and
`p_vol1`. -/
theorem startService_accepts_substring_match :
    (startServiceSem c5Engine "p" c5Svc).result = Except.ok ()
    ∧ (startServiceSem c5Engine "p" c5Svc).created = []
    ∧ containerNameFor "p" c5Svc = "p-x-1"
    ∧ (∀ c ∈ [c5Container], ∀ n ∈ c.names, n ≠ "/p-x-1" ∧ n ≠ "p-x-1")
    ∧ (startOneNetwork c5Engine "p" ("net1",
        { labels := [], driver := "bridge", enableIPv6 := none })).created
      = [CreatedResource.network "p_net1" "net1" (mkNetworkLabels [] "p" "net1")]
    ∧ (startOneVolume c5Engine "p" ("vol1", { labels := [], driver := "local" })).created
      = [CreatedResource.volume "p_vol1" "vol1" (mkVolumeLabels [] "p" "vol1")] :=
  ⟨rfl, rfl, rfl, by decide, rfl, rfl⟩
